import Mathlib

/-!
Formal model of the newsAlert fetch pipeline
(`scripts/telegram_fetch.py`, with the authentication helper
`scripts/telegram_test.py`), embedded shallowly in Lean.

Modelling conventions:
* A message timestamp is an integer instant (think seconds since an epoch).
  The script renders timestamps with `datetime.isoformat()`; all dates come
  from the same transport with the same timezone and precision, so the
  ISO-8601 string order coincides with the instant order and the integer
  stands in for both the `datetime` and its `isoformat()` string.
* A message body is a `String`; the empty string models Python-falsy
  `msg.message` (either `None` or `""`), which the loop skips.
* The remote service is a function from a channel handle to a
  `ChannelBehavior` describing what `get_entity` / `iter_messages` do for
  that handle: resolution may raise, and iteration may yield some messages
  and then raise.
* `sorted(results, key=lambda x: x['timestamp'], reverse=True)` is Python's
  stable sort with the comparison reversed: equal keys keep their input
  order.  It is modelled by `List.insertionSort` with the non-strict
  "greater or equal timestamp" relation, which is exactly that stable
  descending sort.
-/

namespace NewsAlert

/-- Channel descriptor, as the dictionaries in `DEFAULT_CHANNELS` and the
ones built from command-line arguments (telegram_fetch.py lines 25-50). -/
structure Channel where
  handle : String
  region : String
  confidence : Nat
  tier : String
deriving DecidableEq

/-- Raw transport message: numeric id, timestamp instant, body text
(`""` models Python-falsy `msg.message`). -/
structure RawMessage where
  id : Nat
  date : Int
  message : String
deriving DecidableEq

/-- Canonical output record built by the loop body
(telegram_fetch.py lines 74-84). `timestamp` is the integer instant whose
ISO-8601 rendering the script stores. -/
structure Post where
  id : String
  platform : String
  handle : String
  region : String
  confidence : Nat
  tier : String
  text : String
  timestamp : Int
  url : String
deriving DecidableEq

/-- Decimal digit character (codes 48-57), as Python `str` renders the
digits of a non-negative integer. -/
def digitChar10 (d : Nat) : Char := Char.ofNat (48 + d)

/-- Most-significant-first decimal digits of `n`.  The first argument is
fuel; `fuel = n + 1` always suffices. -/
def digitsAux : Nat → Nat → List Char
  | 0, _ => []
  | fuel + 1, n =>
    if n < 10 then [digitChar10 n]
    else digitsAux fuel (n / 10) ++ [digitChar10 (n % 10)]

/-- Decimal rendering of a natural number, as Python `str(msg.id)` inside
the f-strings of telegram_fetch.py lines 75 and 83. -/
def natStr (n : Nat) : String := String.mk (digitsAux (n + 1) n)

/-- Built-in channel list (telegram_fetch.py lines 25-35). -/
def DEFAULT_CHANNELS : List Channel :=
  [ ⟨"DeepStateUA", "europe-russia", 92, "official"⟩
  , ⟨"DeepStateEN", "europe-russia", 92, "official"⟩
  , ⟨"wartranslated", "europe-russia", 90, "osint"⟩
  , ⟨"DIUkraine", "europe-russia", 95, "official"⟩
  , ⟨"idfofficial", "middle-east", 95, "official"⟩
  , ⟨"englishabuali", "middle-east", 82, "osint"⟩
  , ⟨"IranIntl_En", "middle-east", 85, "news-org"⟩ ]

/-- Resolution of `TELEGRAM_API_ID` (telegram_fetch.py line 21): the
environment value if present, else the hard-coded default. -/
def API_ID (env : String → Option String) : String :=
  (env "TELEGRAM_API_ID").getD "34591236"

/-- Resolution of `TELEGRAM_API_HASH` (telegram_fetch.py line 22). -/
def API_HASH (env : String → Option String) : String :=
  (env "TELEGRAM_API_HASH").getD "5aaa0b9349afe69aff162680f58633fd"

/-- Channel list resolution (telegram_fetch.py lines 46-50): explicit
command-line handles become descriptors with the default tags, otherwise
the built-in list is used. -/
def resolveChannels (args : List String) : List Channel :=
  if args.length > 0 then args.map (fun h => ⟨h, "all", 80, "osint"⟩)
  else DEFAULT_CHANNELS

/-- Normalization of one raw message for channel `ch`
(telegram_fetch.py lines 74-84). -/
def normalize (ch : Channel) (m : RawMessage) : Post :=
  { id := "telegram-" ++ ch.handle ++ "-" ++ natStr m.id
  , platform := "telegram"
  , handle := ch.handle
  , region := ch.region
  , confidence := ch.confidence
  , tier := ch.tier
  , text := m.message
  , timestamp := m.date
  , url := "https://t.me/" ++ ch.handle ++ "/" ++ natStr m.id }

/-- Body of the message loop (telegram_fetch.py lines 68-84) applied to the
sequence of messages the iterator yields: a message older than the cutoff
is skipped with `continue`, a message with falsy body is skipped with
`continue`, anything else is appended as a normalized post. -/
def processMsgs (ch : Channel) (cutoff : Int) : List RawMessage → List Post
  | [] => []
  | m :: ms =>
    if m.date < cutoff then processMsgs ch cutoff ms
    else if m.message = "" then processMsgs ch cutoff ms
    else normalize ch m :: processMsgs ch cutoff ms

/-- Behaviour of the remote service for one channel handle:
`resolveError = some e` means `get_entity` raises `e`; otherwise
`msgs` is the (newest-first) sequence `iter_messages` yields, and
`iterFail = some (k, e)` means iteration raises `e` in place of yielding
the `(k+1)`-th message (no exception if iteration ends before that). -/
structure ChannelBehavior where
  resolveError : Option String
  msgs : List RawMessage
  iterFail : Option (Nat × String)

/-- Diagnostic line written to stderr on a per-channel failure
(telegram_fetch.py line 87). -/
def errLine (handle e : String) : String :=
  "Error fetching @" ++ handle ++ ": " ++ e

/-- Messages actually yielded by `iter_messages(channel, limit=limit)`
together with the exception, if any, that ends the iteration. -/
def yieldedMsgs (b : ChannelBehavior) (limit : Nat) :
    List RawMessage × Option String :=
  let ms := b.msgs.take limit
  match b.iterFail with
  | none => (ms, none)
  | some (k, e) => if k < ms.length then (ms.take k, some e) else (ms, none)

/-- One iteration of the channel loop (telegram_fetch.py lines 63-87):
the `try` block resolves the handle and processes the yielded messages;
any exception is caught and turned into a diagnostic line, keeping the
posts appended before the exception. -/
def fetchChannel (remote : String → ChannelBehavior) (cutoff : Int)
    (limit : Nat) (ch : Channel) : List Post × List String :=
  match (remote ch.handle).resolveError with
  | some e => ([], [errLine ch.handle e])
  | none =>
    match yieldedMsgs (remote ch.handle) limit with
    | (ms, none) => (processMsgs ch cutoff ms, [])
    | (ms, some e) => (processMsgs ch cutoff ms, [errLine ch.handle e])

/-- The whole channel loop: posts are appended to `results` channel by
channel, diagnostics accumulate in order. -/
def loopChannels (remote : String → ChannelBehavior) (cutoff : Int)
    (limit : Nat) : List Channel → List Post × List String
  | [] => ([], [])
  | ch :: rest =>
    let pe := fetchChannel remote cutoff limit ch
    let re := loopChannels remote cutoff limit rest
    (pe.1 ++ re.1, pe.2 ++ re.2)

/-- Non-strict descending order on posts by timestamp: the sort key
relation of `sorted(results, key=lambda x: x['timestamp'], reverse=True)`. -/
def postGE (a b : Post) : Prop := b.timestamp ≤ a.timestamp

instance : DecidableRel postGE :=
  fun a b => inferInstanceAs (Decidable (b.timestamp ≤ a.timestamp))

instance : IsTotal Post postGE := ⟨fun a b => Int.le_total b.timestamp a.timestamp⟩

instance : IsTrans Post postGE := ⟨fun _ _ _ h₁ h₂ => le_trans h₂ h₁⟩

/-- Python's stable descending sort by timestamp
(telegram_fetch.py line 96). -/
def pySortDesc (l : List Post) : List Post := List.insertionSort postGE l

/-- The output document (telegram_fetch.py lines 92-97), minus the
`fetched_at` wall-clock field which carries no checked property. -/
structure Output where
  channel_count : Nat
  post_count : Nat
  posts : List Post
deriving DecidableEq

/-- Builds the output document from the attempted channel list and the
accumulated results (telegram_fetch.py lines 92-97). -/
def buildOutput (channels : List Channel) (results : List Post) : Output :=
  { channel_count := channels.length
  , post_count := results.length
  , posts := pySortDesc results }

/-- The fetch phase of `main`: run the channel loop over the resolved
descriptors and build the output document. -/
def runFetch (remote : String → ChannelBehavior) (cutoff : Int) (limit : Nat)
    (channels : List Channel) : Output × List String :=
  let pe := loopChannels remote cutoff limit channels
  (buildOutput channels pe.1, pe.2)

/-- Result of a whole run: either a fatal startup error (diagnostic line on
stderr plus `sys.exit` code, no channel fetched) or a completed run with
its output document and per-channel diagnostics. -/
inductive RunResult where
  | fatal (diag : String) (exitCode : Nat)
  | completed (out : Output) (diags : List String)
deriving DecidableEq

/-- The 24-hour cutoff window of telegram_fetch.py line 61, in seconds. -/
def CUTOFF_SECONDS : Int := 86400

/-- The `main` of telegram_fetch.py: import check (lines 39-43), channel
resolution (lines 46-50), authorization check (lines 56-58), then the
fetch loop with `cutoff = now - 24h` and `limit = 20` and the output
document (lines 60-99). -/
def fetchMain (telethonInstalled authorized : Bool) (args : List String)
    (remote : String → ChannelBehavior) (now : Int) : RunResult :=
  if telethonInstalled = false then
    .fatal "\x7b\"error\": \"telethon not installed\"\x7d" 1
  else
    let channels := resolveChannels args
    if authorized = false then
      .fatal "\x7b\"error\": \"not authorized - run telegram_test.py first\"\x7d" 1
    else
      let pe := runFetch remote (now - CUTOFF_SECONDS) 20 channels
      .completed pe.1 pe.2

/-- Observable outcome of a `telegram_test.py` run: the process exit
status, whether the setup banner was printed (to stdout), and whether the
run reached the channel-reading phase. -/
structure TestOutcome where
  exitCode : Nat
  setupBanner : Bool
  fetchAttempted : Bool
deriving DecidableEq

/-- The `main` of telegram_test.py up to the channel-reading phase
(lines 44-113).  Every early-return path is a plain `return` from `main`
and the script contains no `sys.exit` call, so every path ends the process
with exit status 0. -/
def testMain (apiIdv apiHashv phone code : String)
    (telethonInstalled authorized signInOk : Bool) : TestOutcome :=
  if apiIdv = "" || apiHashv = "" then ⟨0, true, false⟩
  else if telethonInstalled = false then ⟨0, false, false⟩
  else if authorized = false then
    if phone = "" then ⟨0, false, false⟩
    else if code = "" then ⟨0, false, false⟩
    else if signInOk = false then ⟨0, false, false⟩
    else ⟨0, false, true⟩
  else ⟨0, false, true⟩

/-- Follows the spec's words, for comparison with `processMsgs`: per-channel
iteration that "stops after the first message older than the window is
encountered" (spec 4.3 point 2), i.e. the same loop body with `break`
instead of `continue` on a too-old message. -/
def specProcessMsgs (ch : Channel) (cutoff : Int) : List RawMessage → List Post
  | [] => []
  | m :: ms =>
    if m.date < cutoff then []
    else if m.message = "" then specProcessMsgs ch cutoff ms
    else normalize ch m :: specProcessMsgs ch cutoff ms

/-! Helper development: correctness of the decimal rendering `natStr`,
needed to reason about post id strings. -/

/-- Numeric value of a most-significant-first digit string (left inverse
of `digitsAux`). -/
def digitsVal (l : List Char) : Nat :=
  l.foldl (fun acc c => 10 * acc + (c.toNat - 48)) 0

theorem digitsVal_append_single (l : List Char) (c : Char) :
    digitsVal (l ++ [c]) = 10 * digitsVal l + (c.toNat - 48) := by
  simp [digitsVal, List.foldl_append]

theorem digitChar10_toNat {d : Nat} (h : d < 10) :
    (digitChar10 d).toNat = 48 + d := by
  interval_cases d <;> decide

theorem digitChar10_ne_dash {d : Nat} (h : d < 10) : digitChar10 d ≠ '-' := by
  interval_cases d <;> decide

theorem digitsVal_digitsAux :
    ∀ fuel n : Nat, n < 10 ^ fuel → digitsVal (digitsAux fuel n) = n := by
  intro fuel
  induction fuel with
  | zero =>
    intro n h
    rw [pow_zero, Nat.lt_one_iff] at h
    subst h
    rfl
  | succ fuel ih =>
    intro n h
    by_cases h10 : n < 10
    · simp [digitsAux, if_pos h10, digitsVal, digitChar10_toNat h10]
    · have hdiv : n / 10 < 10 ^ fuel := by
        rw [Nat.div_lt_iff_lt_mul (by norm_num)]
        calc n < 10 ^ (fuel + 1) := h
          _ = 10 ^ fuel * 10 := by ring
      rw [digitsAux, if_neg h10, digitsVal_append_single, ih _ hdiv,
        digitChar10_toNat (Nat.mod_lt _ (by norm_num))]
      omega

theorem natStr_inj {m n : Nat} (h : natStr m = natStr n) : m = n := by
  have hd : digitsAux (m + 1) m = digitsAux (n + 1) n := by
    have hdata := congrArg String.data h
    simpa [natStr] using hdata
  have hm : m < 10 ^ (m + 1) :=
    lt_of_lt_of_le (Nat.lt_pow_self (by norm_num) m)
      (Nat.pow_le_pow_right (by norm_num) (Nat.le_succ m))
  have hn : n < 10 ^ (n + 1) :=
    lt_of_lt_of_le (Nat.lt_pow_self (by norm_num) n)
      (Nat.pow_le_pow_right (by norm_num) (Nat.le_succ n))
  calc m = digitsVal (digitsAux (m + 1) m) := (digitsVal_digitsAux _ _ hm).symm
    _ = digitsVal (digitsAux (n + 1) n) := by rw [hd]
    _ = n := digitsVal_digitsAux _ _ hn

theorem dash_not_mem_digitsAux : ∀ fuel n : Nat, '-' ∉ digitsAux fuel n := by
  intro fuel
  induction fuel with
  | zero => intro n; simp [digitsAux]
  | succ fuel ih =>
    intro n
    by_cases h10 : n < 10
    · rw [digitsAux, if_pos h10]
      intro hmem
      exact digitChar10_ne_dash h10 (List.mem_singleton.mp hmem).symm
    · rw [digitsAux, if_neg h10]
      intro hmem
      rcases List.mem_append.mp hmem with h1 | h2
      · exact ih _ h1
      · exact digitChar10_ne_dash (Nat.mod_lt _ (by norm_num))
          (List.mem_singleton.mp h2).symm

theorem dash_not_mem_natStr (n : Nat) : '-' ∉ (natStr n).data :=
  dash_not_mem_digitsAux _ _

/-- Splitting at the last dash of a character list is unambiguous when the
part after the dash is dash-free. -/
theorem append_dash_inj :
    ∀ a : List Char, '-' ∉ a → ∀ b : List Char, '-' ∉ b →
      ∀ c d : List Char, a ++ '-' :: c = b ++ '-' :: d → a = b ∧ c = d := by
  intro a
  induction a with
  | nil =>
    intro _ b hb c d h
    cases b with
    | nil => simpa using h
    | cons y b' =>
      exfalso
      simp only [List.nil_append, List.cons_append, List.cons.injEq] at h
      exact hb (by rw [← h.1]; exact List.mem_cons_self _ _)
  | cons x a' ih =>
    intro ha b hb c d h
    cases b with
    | nil =>
      exfalso
      simp only [List.nil_append, List.cons_append, List.cons.injEq] at h
      exact ha (by rw [h.1]; exact List.mem_cons_self _ _)
    | cons y b' =>
      simp only [List.cons_append, List.cons.injEq] at h
      obtain ⟨hxy, htl⟩ := h
      have ha' : '-' ∉ a' := fun hm => ha (List.mem_cons_of_mem _ hm)
      have hb' : '-' ∉ b' := fun hm => hb (List.mem_cons_of_mem _ hm)
      obtain ⟨h1, h2⟩ := ih ha' b' hb' c d htl
      exact ⟨by rw [hxy, h1], h2⟩

/-- Post id string, as built by the f-string on telegram_fetch.py
line 75. -/
def postId (handle : String) (n : Nat) : String :=
  "telegram-" ++ handle ++ "-" ++ natStr n

theorem normalize_id (ch : Channel) (m : RawMessage) :
    (normalize ch m).id = postId ch.handle m.id := rfl

theorem postId_inj {h₁ h₂ : String} {n₁ n₂ : Nat}
    (h : postId h₁ n₁ = postId h₂ n₂) : h₁ = h₂ ∧ n₁ = n₂ := by
  have hd := congrArg String.data h
  simp only [postId, String.data_append, List.append_assoc] at hd
  have hd' : "telegram-".data ++ (h₁.data ++ '-' :: (natStr n₁).data) =
      "telegram-".data ++ (h₂.data ++ '-' :: (natStr n₂).data) := hd
  have hc := List.append_cancel_left hd'
  have hrev := congrArg List.reverse hc
  simp only [List.reverse_append, List.reverse_cons, List.append_assoc,
    List.singleton_append] at hrev
  have h1 : '-' ∉ (natStr n₁).data.reverse :=
    fun hm => dash_not_mem_natStr n₁ (List.mem_reverse.mp hm)
  have h2 : '-' ∉ (natStr n₂).data.reverse :=
    fun hm => dash_not_mem_natStr n₂ (List.mem_reverse.mp hm)
  obtain ⟨hr, hh⟩ := append_dash_inj _ h1 _ h2 _ _ hrev
  constructor
  · apply String.ext
    have := congrArg List.reverse hh
    simpa using this
  · apply natStr_inj
    apply String.ext
    have := congrArg List.reverse hr
    simpa using this

/-! Helper development: structure of the per-channel loop. -/

/-- Test the loop keeps a message: not older than the cutoff and with a
truthy body (the two `continue` guards of telegram_fetch.py lines 69-72). -/
def keepMsg (cutoff : Int) (m : RawMessage) : Bool :=
  !(decide (m.date < cutoff)) && !(decide (m.message = ""))

theorem processMsgs_eq_filter_map (ch : Channel) (cutoff : Int) :
    ∀ ms : List RawMessage,
      processMsgs ch cutoff ms = (ms.filter (keepMsg cutoff)).map (normalize ch) := by
  intro ms
  induction ms with
  | nil => rfl
  | cons m ms ih =>
    by_cases h1 : m.date < cutoff
    · rw [processMsgs, if_pos h1, ih]
      simp [List.filter_cons, keepMsg, h1]
    · by_cases h2 : m.message = ""
      · rw [processMsgs, if_neg h1, if_pos h2, ih]
        simp [List.filter_cons, keepMsg, h1, h2]
      · rw [processMsgs, if_neg h1, if_neg h2, ih]
        simp [List.filter_cons, keepMsg, h1, h2]

theorem mem_processMsgs {ch : Channel} {cutoff : Int} {ms : List RawMessage}
    {p : Post} (hp : p ∈ processMsgs ch cutoff ms) :
    ∃ m, m ∈ ms ∧ p = normalize ch m ∧ ¬m.date < cutoff ∧ m.message ≠ "" := by
  rw [processMsgs_eq_filter_map] at hp
  rcases List.mem_map.mp hp with ⟨m, hm, rfl⟩
  rcases List.mem_filter.mp hm with ⟨hms, hkeep⟩
  simp only [keepMsg, Bool.and_eq_true, Bool.not_eq_true', decide_eq_false_iff_not] at hkeep
  exact ⟨m, hms, rfl, hkeep.1, hkeep.2⟩

theorem processMsgs_nil_of_all_old {ch : Channel} {cutoff : Int} :
    ∀ {ms : List RawMessage}, (∀ m ∈ ms, m.date < cutoff) →
      processMsgs ch cutoff ms = [] := by
  intro ms
  induction ms with
  | nil => intro _; rfl
  | cons m ms ih =>
    intro hall
    rw [processMsgs, if_pos (hall m (List.mem_cons_self _ _))]
    exact ih fun m' hm' => hall m' (List.mem_cons_of_mem _ hm')

/-- The yielded message sequence is always a sublist of the channel's
message history. -/
theorem yieldedMsgs_sublist (b : ChannelBehavior) (limit : Nat) :
    (yieldedMsgs b limit).1.Sublist b.msgs := by
  unfold yieldedMsgs
  cases b.iterFail with
  | none => exact List.take_sublist _ _
  | some ke =>
    obtain ⟨k, e⟩ := ke
    show (if k < (b.msgs.take limit).length then (List.take k (b.msgs.take limit), some e)
      else (b.msgs.take limit, none)).1.Sublist b.msgs
    by_cases hk : k < (b.msgs.take limit).length
    · rw [if_pos hk]
      exact (List.take_sublist _ _).trans (List.take_sublist _ _)
    · rw [if_neg hk]
      exact List.take_sublist _ _

/-- The posts of one channel iteration are the processed yielded messages
(empty when resolution fails). -/
theorem fetchChannel_posts (remote : String → ChannelBehavior) (cutoff : Int)
    (limit : Nat) (ch : Channel) :
    (fetchChannel remote cutoff limit ch).1 =
      match (remote ch.handle).resolveError with
      | some _ => []
      | none => processMsgs ch cutoff (yieldedMsgs (remote ch.handle) limit).1 := by
  unfold fetchChannel
  cases (remote ch.handle).resolveError with
  | some e => rfl
  | none =>
    cases hy : yieldedMsgs (remote ch.handle) limit with
    | mk ms oe => cases oe <;> simp [hy]

theorem mem_fetchChannel {remote : String → ChannelBehavior} {cutoff : Int}
    {limit : Nat} {ch : Channel} {p : Post}
    (hp : p ∈ (fetchChannel remote cutoff limit ch).1) :
    ∃ m, m ∈ (remote ch.handle).msgs ∧ p = normalize ch m ∧
      ¬m.date < cutoff ∧ m.message ≠ "" := by
  rw [fetchChannel_posts] at hp
  cases hr : (remote ch.handle).resolveError with
  | some e => rw [hr] at hp; simp at hp
  | none =>
    rw [hr] at hp
    rcases mem_processMsgs hp with ⟨m, hm, rfl, h1, h2⟩
    exact ⟨m, (yieldedMsgs_sublist _ _).mem hm, rfl, h1, h2⟩

theorem loopChannels_cons (remote : String → ChannelBehavior) (cutoff : Int)
    (limit : Nat) (ch : Channel) (rest : List Channel) :
    loopChannels remote cutoff limit (ch :: rest) =
      ((fetchChannel remote cutoff limit ch).1 ++ (loopChannels remote cutoff limit rest).1,
       (fetchChannel remote cutoff limit ch).2 ++ (loopChannels remote cutoff limit rest).2) := rfl

theorem loopChannels_append (remote : String → ChannelBehavior) (cutoff : Int)
    (limit : Nat) :
    ∀ xs ys : List Channel,
      loopChannels remote cutoff limit (xs ++ ys) =
        ((loopChannels remote cutoff limit xs).1 ++ (loopChannels remote cutoff limit ys).1,
         (loopChannels remote cutoff limit xs).2 ++ (loopChannels remote cutoff limit ys).2) := by
  intro xs ys
  induction xs with
  | nil => simp [loopChannels]
  | cons ch xs ih =>
    rw [List.cons_append, loopChannels_cons, ih, loopChannels_cons]
    simp [List.append_assoc]

theorem mem_loopChannels {remote : String → ChannelBehavior} {cutoff : Int}
    {limit : Nat} :
    ∀ {chs : List Channel} {p : Post},
      p ∈ (loopChannels remote cutoff limit chs).1 →
      ∃ ch, ch ∈ chs ∧ p ∈ (fetchChannel remote cutoff limit ch).1 := by
  intro chs
  induction chs with
  | nil => intro p hp; simp [loopChannels] at hp
  | cons ch rest ih =>
    intro p hp
    rw [loopChannels_cons] at hp
    rcases List.mem_append.mp hp with h | h
    · exact ⟨ch, List.mem_cons_self _ _, h⟩
    · rcases ih h with ⟨ch', hch', hp'⟩
      exact ⟨ch', List.mem_cons_of_mem _ hch', hp'⟩

/-- Membership in the final sorted output comes from membership in the
accumulated results. -/
theorem mem_posts_iff (channels : List Channel) (results : List Post) (p : Post) :
    p ∈ (buildOutput channels results).posts ↔ p ∈ results :=
  (List.perm_insertionSort postGE results).mem_iff

/-- Any post of a completed run is a normalized kept message of one of the
attempted channels. -/
theorem mem_runFetch_posts {remote : String → ChannelBehavior} {cutoff : Int}
    {limit : Nat} {chs : List Channel} {p : Post}
    (hp : p ∈ (runFetch remote cutoff limit chs).1.posts) :
    ∃ ch, ch ∈ chs ∧ ∃ m, m ∈ (remote ch.handle).msgs ∧ p = normalize ch m ∧
      ¬m.date < cutoff ∧ m.message ≠ "" := by
  rw [runFetch] at hp
  rcases mem_loopChannels ((mem_posts_iff _ _ _).mp hp) with ⟨ch, hch, hpch⟩
  rcases mem_fetchChannel hpch with ⟨m, hm, rfl, h1, h2⟩
  exact ⟨ch, hch, m, hm, rfl, h1, h2⟩

/-! Helper development: stability of the descending sort. -/

theorem filter_orderedInsert_timestamp (t : Int) (a : Post) :
    ∀ l : List Post,
      (List.orderedInsert postGE a l).filter (fun p => decide (p.timestamp = t)) =
        (a :: l).filter (fun p => decide (p.timestamp = t)) := by
  intro l
  induction l with
  | nil => rfl
  | cons b l ih =>
    by_cases hr : postGE a b
    · rw [List.orderedInsert, if_pos hr]
    · rw [List.orderedInsert, if_neg hr]
      by_cases hpa : a.timestamp = t
      · have hpb : ¬b.timestamp = t := by
          unfold postGE at hr
          omega
        simp [List.filter_cons, ih, hpa, hpb]
      · simp [List.filter_cons, ih, hpa]

theorem filter_insertionSort_timestamp (t : Int) :
    ∀ l : List Post,
      (List.insertionSort postGE l).filter (fun p => decide (p.timestamp = t)) =
        l.filter (fun p => decide (p.timestamp = t)) := by
  intro l
  induction l with
  | nil => rfl
  | cons a l ih =>
    rw [List.insertionSort, filter_orderedInsert_timestamp]
    simp only [List.filter_cons, ih]

/-- On a newest-first message sequence the skip-too-old loop and the
stop-at-first-too-old loop produce the same posts. -/
theorem processMsgs_eq_spec_of_sorted (ch : Channel) (cutoff : Int) :
    ∀ ms : List RawMessage, List.Pairwise (fun a b => b.date ≤ a.date) ms →
      processMsgs ch cutoff ms = specProcessMsgs ch cutoff ms := by
  intro ms
  induction ms with
  | nil => intro _; rfl
  | cons m ms ih =>
    intro hs
    rcases List.pairwise_cons.mp hs with ⟨hall, htl⟩
    by_cases h1 : m.date < cutoff
    · rw [processMsgs, if_pos h1, specProcessMsgs, if_pos h1]
      exact processMsgs_nil_of_all_old fun m' hm' => lt_of_le_of_lt (hall m' hm') h1
    · by_cases h2 : m.message = ""
      · rw [processMsgs, if_neg h1, if_pos h2, specProcessMsgs, if_neg h1, if_pos h2]
        exact ih htl
      · rw [processMsgs, if_neg h1, if_neg h2, specProcessMsgs, if_neg h1, if_neg h2,
          ih htl]

/-! Helper development: uniqueness of post ids. -/

theorem fetchChannel_ids {remote : String → ChannelBehavior} {cutoff : Int}
    {limit : Nat} {ch : Channel} {p : Post}
    (hp : p ∈ (fetchChannel remote cutoff limit ch).1) :
    ∃ n : Nat, p.id = postId ch.handle n := by
  rcases mem_fetchChannel hp with ⟨m, _, rfl, _, _⟩
  exact ⟨m.id, rfl⟩

theorem fetchChannel_ids_nodup {remote : String → ChannelBehavior} {cutoff : Int}
    {limit : Nat} {ch : Channel}
    (h : ((remote ch.handle).msgs.map RawMessage.id).Nodup) :
    ((fetchChannel remote cutoff limit ch).1.map Post.id).Nodup := by
  rw [fetchChannel_posts]
  cases hr : (remote ch.handle).resolveError with
  | some e => simp
  | none =>
    rw [processMsgs_eq_filter_map]
    have hsub : (((yieldedMsgs (remote ch.handle) limit).1.filter
        (keepMsg cutoff)).map RawMessage.id).Sublist
        ((remote ch.handle).msgs.map RawMessage.id) :=
      ((List.filter_sublist _).trans (yieldedMsgs_sublist _ _)).map _
    have hnd : (((yieldedMsgs (remote ch.handle) limit).1.filter
        (keepMsg cutoff)).map RawMessage.id).Nodup := hsub.nodup h
    have hinj : Function.Injective (fun n => postId ch.handle n) :=
      fun n₁ n₂ hn => (postId_inj hn).2
    have := hnd.map hinj
    simpa [List.map_map, Function.comp] using this

theorem loop_ids_shape {remote : String → ChannelBehavior} {cutoff : Int}
    {limit : Nat} {chs : List Channel} {x : String}
    (hx : x ∈ (loopChannels remote cutoff limit chs).1.map Post.id) :
    ∃ ch, ch ∈ chs ∧ ∃ n : Nat, x = postId ch.handle n := by
  rcases List.mem_map.mp hx with ⟨p, hp, rfl⟩
  rcases mem_loopChannels hp with ⟨ch, hch, hpch⟩
  rcases fetchChannel_ids hpch with ⟨n, hn⟩
  exact ⟨ch, hch, n, hn⟩

theorem loop_ids_nodup {remote : String → ChannelBehavior} {cutoff : Int}
    {limit : Nat} :
    ∀ chs : List Channel, (chs.map Channel.handle).Nodup →
      (∀ ch ∈ chs, ((remote ch.handle).msgs.map RawMessage.id).Nodup) →
      ((loopChannels remote cutoff limit chs).1.map Post.id).Nodup := by
  intro chs
  induction chs with
  | nil => intro _ _; simp [loopChannels]
  | cons ch rest ih =>
    intro hhandles hmsgs
    rw [List.map_cons, List.nodup_cons] at hhandles
    obtain ⟨hnotin, hrest⟩ := hhandles
    rw [loopChannels_cons]
    simp only [List.map_append]
    rw [List.nodup_append]
    refine ⟨fetchChannel_ids_nodup (hmsgs ch (List.mem_cons_self _ _)),
      ih hrest (fun ch' hch' => hmsgs ch' (List.mem_cons_of_mem _ hch')), ?_⟩
    intro x hx₁ hx₂
    rcases List.mem_map.mp hx₁ with ⟨p, hp, rfl⟩
    rcases fetchChannel_ids hp with ⟨n, hn⟩
    rcases loop_ids_shape hx₂ with ⟨ch', hch', n', hn'⟩
    have : ch.handle = ch'.handle := (postId_inj (hn ▸ hn')).1
    exact hnotin (this ▸ List.mem_map_of_mem Channel.handle hch')

/-! Claim theorems. -/

/-- C3: in every run no post older than the 24-hour cutoff window appears
in the output, and on a channel with messages timestamped now, now minus
one hour and now minus 25 hours, exactly the first two yield posts. -/
theorem C3_window_exclusion :
    (∀ (remote : String → ChannelBehavior) (now : Int) (limit : Nat)
        (chs : List Channel) (p : Post),
        p ∈ (runFetch remote (now - CUTOFF_SECONDS) limit chs).1.posts →
        ¬p.timestamp < now - CUTOFF_SECONDS) ∧
    (runFetch
        (fun _ => ⟨none, [⟨1, 1000000, "a"⟩, ⟨2, 1000000 - 3600, "b"⟩,
          ⟨3, 1000000 - 90000, "c"⟩], none⟩)
        (1000000 - CUTOFF_SECONDS) 20 [⟨"X", "r", 90, "osint"⟩]).1.posts =
      [normalize ⟨"X", "r", 90, "osint"⟩ ⟨1, 1000000, "a"⟩,
       normalize ⟨"X", "r", 90, "osint"⟩ ⟨2, 1000000 - 3600, "b"⟩] := by
  constructor
  · intro remote now limit chs p hp
    rcases mem_runFetch_posts hp with ⟨ch, _, m, _, rfl, h1, _⟩
    exact h1
  · decide

/-- Witness for C3 at a concrete run: the post of the message dated `now`
is in the output and satisfies the window bound. -/
theorem C3_window_exclusion_witness :
    ¬(normalize ⟨"X", "r", 90, "osint"⟩ ⟨1, 1000000, "a"⟩).timestamp <
      1000000 - CUTOFF_SECONDS :=
  C3_window_exclusion.1 (fun _ => ⟨none, [⟨1, 1000000, "a"⟩], none⟩) 1000000 20
    [⟨"X", "r", 90, "osint"⟩] _ (by decide)

/-- C5: every post of every run has non-empty text: a message with a falsy
body is skipped and never normalized. -/
theorem C5_nonempty_text (remote : String → ChannelBehavior) (cutoff : Int)
    (limit : Nat) (chs : List Channel) (p : Post)
    (hp : p ∈ (runFetch remote cutoff limit chs).1.posts) : p.text ≠ "" := by
  rcases mem_runFetch_posts hp with ⟨ch, _, m, _, rfl, _, h2⟩
  exact h2

/-- Witness for C5 at a concrete run with one textual message. -/
theorem C5_nonempty_text_witness :
    (normalize ⟨"Y", "all", 80, "osint"⟩ ⟨7, 5, "hello"⟩).text ≠ "" :=
  C5_nonempty_text (fun _ => ⟨none, [⟨7, 5, "hello"⟩, ⟨8, 5, ""⟩], none⟩) 0 20
    [⟨"Y", "all", 80, "osint"⟩] _ (by decide)

/-- C6: in every run `post_count` is the length of `posts` and
`channel_count` is the number of descriptors attempted, whatever the
per-channel behaviours (including failing channels that contribute no
posts). -/
theorem C6_counts (remote : String → ChannelBehavior) (cutoff : Int)
    (limit : Nat) (chs : List Channel) :
    (runFetch remote cutoff limit chs).1.post_count =
      (runFetch remote cutoff limit chs).1.posts.length ∧
    (runFetch remote cutoff limit chs).1.channel_count = chs.length := by
  constructor
  · show (loopChannels remote cutoff limit chs).1.length =
      (pySortDesc (loopChannels remote cutoff limit chs).1).length
    exact (List.perm_insertionSort postGE _).length_eq.symm
  · rfl

/-- C9: a message dated exactly at the cutoff instant is not discarded by
the window check (the comparison is strict `<`), so with non-empty text it
yields a post. -/
theorem C9_boundary_inclusive (ch : Channel) (cutoff : Int)
    (ms₁ ms₂ : List RawMessage) (m : RawMessage)
    (hdate : m.date = cutoff) (htext : m.message ≠ "") :
    normalize ch m ∈ processMsgs ch cutoff (ms₁ ++ m :: ms₂) := by
  rw [processMsgs_eq_filter_map]
  refine List.mem_map_of_mem _ (List.mem_filter.mpr ⟨?_, ?_⟩)
  · exact List.mem_append.mpr (Or.inr (List.mem_cons_self _ _))
  · simp [keepMsg, hdate, htext]

/-- Witness for C9: a message dated exactly at the cutoff yields its
post. -/
theorem C9_boundary_inclusive_witness :
    normalize ⟨"Z", "all", 80, "osint"⟩ ⟨3, 200, "edge"⟩ ∈
      processMsgs ⟨"Z", "all", 80, "osint"⟩ 200
        ([] ++ (⟨3, 200, "edge"⟩ : RawMessage) :: []) :=
  C9_boundary_inclusive ⟨"Z", "all", 80, "osint"⟩ 200 [] [] ⟨3, 200, "edge"⟩
    rfl (by decide)

/-- C4: in every run the output posts are descending by timestamp for all
adjacent pairs, and the sort is stable: the posts with any given timestamp
appear in exactly their order in the accumulated per-channel results. -/
theorem C4_sorted_stable (remote : String → ChannelBehavior) (cutoff : Int)
    (limit : Nat) (chs : List Channel) :
    List.Chain' (fun a b => b.timestamp ≤ a.timestamp)
      (runFetch remote cutoff limit chs).1.posts ∧
    ∀ t : Int,
      (runFetch remote cutoff limit chs).1.posts.filter
          (fun p => decide (p.timestamp = t)) =
        (loopChannels remote cutoff limit chs).1.filter
          (fun p => decide (p.timestamp = t)) := by
  constructor
  · have hs := List.sorted_insertionSort postGE (loopChannels remote cutoff limit chs).1
    exact hs.chain'
  · intro t
    exact filter_insertionSort_timestamp t _

/-- C1: a channel that raises is isolated.  If resolution raises, the
channel is logged with its handle, contributes no posts, and the output
posts equal those of the run without that channel, while `channel_count`
still counts it.  If iteration raises after `k` yielded messages, the
diagnostic is logged and the channel contributes exactly the posts of its
pre-exception prefix, the other channels' contributions unchanged. -/
theorem C1_failure_isolation (remote : String → ChannelBehavior) (cutoff : Int)
    (limit : Nat) (l₁ l₂ : List Channel) (bad : Channel) :
    (∀ e, (remote bad.handle).resolveError = some e →
      (runFetch remote cutoff limit (l₁ ++ bad :: l₂)).1.posts =
        (runFetch remote cutoff limit (l₁ ++ l₂)).1.posts ∧
      (runFetch remote cutoff limit (l₁ ++ bad :: l₂)).1.post_count =
        (runFetch remote cutoff limit (l₁ ++ l₂)).1.post_count ∧
      (runFetch remote cutoff limit (l₁ ++ bad :: l₂)).1.channel_count =
        l₁.length + 1 + l₂.length ∧
      errLine bad.handle e ∈ (runFetch remote cutoff limit (l₁ ++ bad :: l₂)).2) ∧
    (∀ k e, (remote bad.handle).resolveError = none →
      (remote bad.handle).iterFail = some (k, e) →
      k < ((remote bad.handle).msgs.take limit).length →
      (loopChannels remote cutoff limit (l₁ ++ bad :: l₂)).1 =
        (loopChannels remote cutoff limit l₁).1 ++
          processMsgs bad cutoff (((remote bad.handle).msgs.take limit).take k) ++
          (loopChannels remote cutoff limit l₂).1 ∧
      errLine bad.handle e ∈ (runFetch remote cutoff limit (l₁ ++ bad :: l₂)).2) := by
  constructor
  · intro e hbad
    have hfetch : fetchChannel remote cutoff limit bad = ([], [errLine bad.handle e]) := by
      unfold fetchChannel
      rw [hbad]
    have hloop := loopChannels_append remote cutoff limit l₁ (bad :: l₂)
    rw [loopChannels_cons, hfetch] at hloop
    have hloop' := loopChannels_append remote cutoff limit l₁ l₂
    refine ⟨?_, ?_, ?_, ?_⟩
    · show pySortDesc (loopChannels remote cutoff limit (l₁ ++ bad :: l₂)).1 =
        pySortDesc (loopChannels remote cutoff limit (l₁ ++ l₂)).1
      rw [hloop, hloop']
      simp
    · show (loopChannels remote cutoff limit (l₁ ++ bad :: l₂)).1.length =
        (loopChannels remote cutoff limit (l₁ ++ l₂)).1.length
      rw [hloop, hloop']
      simp
    · show (l₁ ++ bad :: l₂).length = l₁.length + 1 + l₂.length
      simp [List.length_append]
      omega
    · show errLine bad.handle e ∈ (loopChannels remote cutoff limit (l₁ ++ bad :: l₂)).2
      rw [hloop]
      exact List.mem_append.mpr (Or.inr (List.mem_cons_self _ _))
  · intro k e hres hfail hk
    have hyield : yieldedMsgs (remote bad.handle) limit =
        (((remote bad.handle).msgs.take limit).take k, some e) := by
      unfold yieldedMsgs
      rw [hfail]
      show (if k < ((remote bad.handle).msgs.take limit).length then _ else _) = _
      rw [if_pos hk]
    have hfetch : fetchChannel remote cutoff limit bad =
        (processMsgs bad cutoff (((remote bad.handle).msgs.take limit).take k),
         [errLine bad.handle e]) := by
      unfold fetchChannel
      rw [hres, hyield]
    have hloop := loopChannels_append remote cutoff limit l₁ (bad :: l₂)
    rw [loopChannels_cons, hfetch] at hloop
    constructor
    · rw [hloop]
      simp [List.append_assoc]
    · show errLine bad.handle e ∈ (loopChannels remote cutoff limit (l₁ ++ bad :: l₂)).2
      rw [hloop]
      exact List.mem_append.mpr (Or.inr (List.mem_cons_self _ _))

/-- Witness for C1 at a concrete run with one failing and one succeeding
channel: only the succeeding channel's post appears in the output. -/
theorem C1_failure_isolation_witness :
    ((runFetch
        (fun h => if h = "badchan" then ⟨some "boom", [], none⟩
          else ⟨none, [⟨1, 10, "hi"⟩], none⟩) 0 20
        ([] ++ (⟨"badchan", "all", 80, "osint"⟩ : Channel) ::
          [⟨"goodchan", "all", 80, "osint"⟩])).1.posts =
      (runFetch
        (fun h => if h = "badchan" then ⟨some "boom", [], none⟩
          else ⟨none, [⟨1, 10, "hi"⟩], none⟩) 0 20
        ([] ++ [⟨"goodchan", "all", 80, "osint"⟩])).1.posts ∧
      (runFetch
        (fun h => if h = "badchan" then ⟨some "boom", [], none⟩
          else ⟨none, [⟨1, 10, "hi"⟩], none⟩) 0 20
        ([] ++ (⟨"badchan", "all", 80, "osint"⟩ : Channel) ::
          [⟨"goodchan", "all", 80, "osint"⟩])).1.post_count =
      (runFetch
        (fun h => if h = "badchan" then ⟨some "boom", [], none⟩
          else ⟨none, [⟨1, 10, "hi"⟩], none⟩) 0 20
        ([] ++ [⟨"goodchan", "all", 80, "osint"⟩])).1.post_count ∧
      (runFetch
        (fun h => if h = "badchan" then ⟨some "boom", [], none⟩
          else ⟨none, [⟨1, 10, "hi"⟩], none⟩) 0 20
        ([] ++ (⟨"badchan", "all", 80, "osint"⟩ : Channel) ::
          [⟨"goodchan", "all", 80, "osint"⟩])).1.channel_count =
      List.length ([] : List Channel) + 1 + List.length [(⟨"goodchan", "all", 80, "osint"⟩ : Channel)] ∧
      errLine "badchan" "boom" ∈
      (runFetch
        (fun h => if h = "badchan" then ⟨some "boom", [], none⟩
          else ⟨none, [⟨1, 10, "hi"⟩], none⟩) 0 20
        ([] ++ (⟨"badchan", "all", 80, "osint"⟩ : Channel) ::
          [⟨"goodchan", "all", 80, "osint"⟩])).2) ∧
    (runFetch
        (fun h => if h = "badchan" then ⟨some "boom", [], none⟩
          else ⟨none, [⟨1, 10, "hi"⟩], none⟩) 0 20
        ([] ++ (⟨"badchan", "all", 80, "osint"⟩ : Channel) ::
          [⟨"goodchan", "all", 80, "osint"⟩])).1.posts =
      [normalize ⟨"goodchan", "all", 80, "osint"⟩ ⟨1, 10, "hi"⟩] ∧
    ((loopChannels (fun _ => ⟨none, [⟨1, 10, "one"⟩, ⟨2, 5, "two"⟩], some (1, "crash")⟩)
        0 20 ([] ++ (⟨"V", "all", 80, "osint"⟩ : Channel) :: [])).1 =
      (loopChannels (fun _ => ⟨none, [⟨1, 10, "one"⟩, ⟨2, 5, "two"⟩], some (1, "crash")⟩)
        0 20 []).1 ++
        processMsgs ⟨"V", "all", 80, "osint"⟩ 0
          ((List.take 20 [⟨1, 10, "one"⟩, ⟨2, 5, "two"⟩]).take 1) ++
        (loopChannels (fun _ => ⟨none, [⟨1, 10, "one"⟩, ⟨2, 5, "two"⟩], some (1, "crash")⟩)
          0 20 []).1 ∧
      errLine "V" "crash" ∈
        (runFetch (fun _ => ⟨none, [⟨1, 10, "one"⟩, ⟨2, 5, "two"⟩], some (1, "crash")⟩)
          0 20 ([] ++ (⟨"V", "all", 80, "osint"⟩ : Channel) :: [])).2) :=
  ⟨(C1_failure_isolation
      (fun h => if h = "badchan" then ⟨some "boom", [], none⟩
        else ⟨none, [⟨1, 10, "hi"⟩], none⟩) 0 20 []
      [⟨"goodchan", "all", 80, "osint"⟩] ⟨"badchan", "all", 80, "osint"⟩).1
    "boom" rfl, by decide,
    (C1_failure_isolation
      (fun _ => ⟨none, [⟨1, 10, "one"⟩, ⟨2, 5, "two"⟩], some (1, "crash")⟩) 0 20 []
      [] ⟨"V", "all", 80, "osint"⟩).2 1 "crash" rfl rfl (by decide)⟩

/-- C10: an exception raised during iteration after some messages were
normalized does not roll the channel back: every post of the pre-exception
prefix is in the final output, and the diagnostic line is logged. -/
theorem C10_partial_contribution (remote : String → ChannelBehavior)
    (cutoff : Int) (limit : Nat) (l₁ l₂ : List Channel) (ch : Channel)
    (k : Nat) (e : String)
    (hres : (remote ch.handle).resolveError = none)
    (hfail : (remote ch.handle).iterFail = some (k, e))
    (hk : k < ((remote ch.handle).msgs.take limit).length) :
    (∀ p ∈ processMsgs ch cutoff (((remote ch.handle).msgs.take limit).take k),
      p ∈ (runFetch remote cutoff limit (l₁ ++ ch :: l₂)).1.posts) ∧
    errLine ch.handle e ∈ (runFetch remote cutoff limit (l₁ ++ ch :: l₂)).2 := by
  have hyield : yieldedMsgs (remote ch.handle) limit =
      (((remote ch.handle).msgs.take limit).take k, some e) := by
    unfold yieldedMsgs
    rw [hfail]
    show (if k < ((remote ch.handle).msgs.take limit).length then _ else _) = _
    rw [if_pos hk]
  have hfetch : fetchChannel remote cutoff limit ch =
      (processMsgs ch cutoff (((remote ch.handle).msgs.take limit).take k),
       [errLine ch.handle e]) := by
    unfold fetchChannel
    rw [hres, hyield]
  have hloop := loopChannels_append remote cutoff limit l₁ (ch :: l₂)
  rw [loopChannels_cons, hfetch] at hloop
  constructor
  · intro p hp
    rw [runFetch]
    refine (mem_posts_iff _ _ _).mpr ?_
    rw [hloop]
    exact List.mem_append.mpr (Or.inr (List.mem_append.mpr (Or.inl hp)))
  · show errLine ch.handle e ∈ (loopChannels remote cutoff limit (l₁ ++ ch :: l₂)).2
    rw [hloop]
    exact List.mem_append.mpr (Or.inr (List.mem_cons_self _ _))

/-- Witness for C10: the post normalized before the iteration exception
survives into the final output. -/
theorem C10_partial_contribution_witness :
    normalize ⟨"W", "all", 80, "osint"⟩ ⟨1, 10, "one"⟩ ∈
      (runFetch (fun _ => ⟨none, [⟨1, 10, "one"⟩, ⟨2, 5, "two"⟩], some (1, "boom")⟩)
        0 20 ([] ++ (⟨"W", "all", 80, "osint"⟩ : Channel) :: [])).1.posts :=
  (C10_partial_contribution
      (fun _ => ⟨none, [⟨1, 10, "one"⟩, ⟨2, 5, "two"⟩], some (1, "boom")⟩)
      0 20 [] [] ⟨"W", "all", 80, "osint"⟩ 1 "boom" rfl rfl (by decide)).1
    _ (by decide)

/-- C2 counterexample: the loop skips a too-old message with `continue`
rather than terminating.  With cutoff 100 and yielded messages
[(id 1, t 50, "a"), (id 2, t 150, "b")], the first message is older than
the cutoff, yet the second message is still examined and yields a post,
and the result differs from the early-terminating iteration the claim
describes. -/
theorem C2_counterexample :
    (RawMessage.date ⟨1, 50, "a"⟩ < 100) ∧
    processMsgs ⟨"X", "r", 90, "osint"⟩ 100 [⟨1, 50, "a"⟩, ⟨2, 150, "b"⟩] =
      [normalize ⟨"X", "r", 90, "osint"⟩ ⟨2, 150, "b"⟩] ∧
    processMsgs ⟨"X", "r", 90, "osint"⟩ 100 [⟨1, 50, "a"⟩, ⟨2, 150, "b"⟩] ≠
      specProcessMsgs ⟨"X", "r", 90, "osint"⟩ 100 [⟨1, 50, "a"⟩, ⟨2, 150, "b"⟩] := by
  refine ⟨by decide, by decide, by decide⟩

/-- C2 amended: per-channel iteration examines up to `limit` messages and
skips a message older than the cutoff rather than terminating on it; when
the yielded sequence really is newest-first (non-increasing timestamps),
the posts produced coincide with those of the early-terminating
iteration. -/
theorem C2_amended_skip_not_break (ch : Channel) (cutoff : Int) (limit : Nat)
    (ms : List RawMessage)
    (hsorted : List.Pairwise (fun a b => b.date ≤ a.date) ms) :
    processMsgs ch cutoff (ms.take limit) = specProcessMsgs ch cutoff (ms.take limit) :=
  processMsgs_eq_spec_of_sorted ch cutoff _
    (List.Pairwise.sublist (List.take_sublist _ _) hsorted)

/-- Witness for the amended C2 on a concrete newest-first channel. -/
theorem C2_amended_skip_not_break_witness :
    processMsgs ⟨"X", "r", 90, "osint"⟩ 100
        (List.take 20 [⟨2, 150, "b"⟩, ⟨1, 50, "a"⟩]) =
      specProcessMsgs ⟨"X", "r", 90, "osint"⟩ 100
        (List.take 20 [⟨2, 150, "b"⟩, ⟨1, 50, "a"⟩]) :=
  C2_amended_skip_not_break ⟨"X", "r", 90, "osint"⟩ 100 20
    [⟨2, 150, "b"⟩, ⟨1, 50, "a"⟩] (by decide)

/-- C7 counterexample: when the caller supplies the same handle twice, the
same channel is fetched twice and the output contains duplicate post
ids. -/
theorem C7_counterexample :
    ¬((runFetch (fun _ => ⟨none, [⟨1, 10, "hi"⟩], none⟩) 0 20
        (resolveChannels ["chan", "chan"])).1.posts.map Post.id).Nodup := by
  decide

/-- C7 amended: post ids are unique within a run provided the attempted
descriptors carry pairwise distinct handles and each channel's raw message
ids are unique within that channel. -/
theorem C7_amended_unique_ids (remote : String → ChannelBehavior) (cutoff : Int)
    (limit : Nat) (chs : List Channel)
    (hhandles : (chs.map Channel.handle).Nodup)
    (hmsgs : ∀ ch ∈ chs, ((remote ch.handle).msgs.map RawMessage.id).Nodup) :
    ((runFetch remote cutoff limit chs).1.posts.map Post.id).Nodup := by
  have hperm : (runFetch remote cutoff limit chs).1.posts.Perm
      (loopChannels remote cutoff limit chs).1 :=
    List.perm_insertionSort postGE _
  exact (hperm.map Post.id).nodup_iff.mpr (loop_ids_nodup chs hhandles hmsgs)

/-- Witness for the amended C7 on two channels with distinct handles. -/
theorem C7_amended_unique_ids_witness :
    ((runFetch
        (fun h => if h = "alpha" then ⟨none, [⟨1, 10, "x"⟩, ⟨2, 9, "y"⟩], none⟩
          else ⟨none, [⟨1, 8, "z"⟩], none⟩) 0 20
        [⟨"alpha", "all", 80, "osint"⟩, ⟨"beta", "all", 80, "osint"⟩]).1.posts.map
      Post.id).Nodup :=
  C7_amended_unique_ids
    (fun h => if h = "alpha" then ⟨none, [⟨1, 10, "x"⟩, ⟨2, 9, "y"⟩], none⟩
      else ⟨none, [⟨1, 8, "z"⟩], none⟩) 0 20
    [⟨"alpha", "all", 80, "osint"⟩, ⟨"beta", "all", 80, "osint"⟩]
    (by decide) (by decide)

/-- C8 counterexample: with no API key pair, no phone, no code and no
authenticated session, the setup helper prints its banner to stdout and the
process ends with exit status 0 (the script contains no `sys.exit`), not
the non-zero AuthFailed exit the claim describes; and in the fetch script
absent environment keys are replaced by hard-coded defaults rather than
failing. -/
theorem C8_counterexample :
    testMain "" "" "" "" true false true = ⟨0, true, false⟩ ∧
    API_ID (fun _ => none) = "34591236" ∧
    API_HASH (fun _ => none) = "5aaa0b9349afe69aff162680f58633fd" := by
  refine ⟨by decide, by decide, by decide⟩

/-- C8 amended: when no authenticated session exists the fetch script does
fail hard before fetching any channel — it emits the not-authorized
diagnostic and exits with status 1 — but independently of the API key
environment (absent keys fall back to the built-in defaults), while the
setup helper always ends with exit status 0 on every path. -/
theorem C8_amended_auth_failure (args : List String)
    (remote : String → ChannelBehavior) (now : Int) :
    fetchMain true false args remote now =
      .fatal "\x7b\"error\": \"not authorized - run telegram_test.py first\"\x7d" 1 ∧
    ∀ (apiIdv apiHashv phone code : String) (t a s : Bool),
      (testMain apiIdv apiHashv phone code t a s).exitCode = 0 := by
  constructor
  · rfl
  · intro apiIdv apiHashv phone code t a s
    unfold testMain
    repeat' split
    all_goals rfl

end NewsAlert
